import Mathlib

/-!
# Page Element Indexing & Selector Resolution Engine — verification

A shallow embedding of the element-indexing and selector-resolution engine
of `src/core/agents/navigator/browserContext.ts`, together with proofs of
the testable properties stated for it.

Modelling conventions:

* A DOM element is a `Node`: its own data (`ElemData`), its light children,
  and the children of its attached shadow root (`[]` when no shadow root is
  attached; an empty attached shadow root is indistinguishable from no
  shadow root for every function modelled here).
* `innerText` is layout-derived in a browser and cannot be computed from the
  DOM tree alone, so it is stored as data on each element, the way
  `getComputedStyle` results (`cursor`, `display`, …) and the bounding-box
  width/height are.
* Elements are identified by paths: an `LPath` is a list of child indices
  inside one scope (the document or one shadow root, never crossing a
  shadow boundary, mirroring `querySelectorAll`); a `GPath` additionally
  records shadow-root hops and identifies an element in the whole page.
* The document is the forest `[body]`: the selector-synthesis walk of the
  source stops at `document.body`, and none of the synthesised selectors
  can refer to `html`/`head`, so elements above `body` are not modelled.
* Synthesised selectors are kept as an AST (`GenSel`) whose rendering
  produces exactly the string the source builds; selector evaluation
  (`querySelectorAll`) is defined on the AST with CSS child-combinator and
  `:nth-of-type` semantics.
-/

/-- Per-element data: tag name (uppercase, as `tagName`), attributes and
computed-style/layout facts used by the engine. `id = ""` models a missing
id (as `htmlEl.id` does); `Option` fields model `getAttribute` returning
`null`. -/
structure ElemData where
  tag : String
  id : String := ""
  className : String := ""
  role : Option String := none
  onclick : Bool := false
  tabindex : Bool := false
  typeAttr : Option String := none
  href : Option String := none
  nameAttr : Option String := none
  ariaLabel : Option String := none
  placeholder : Option String := none
  valueProp : String := ""
  src : Option String := none
  title : Option String := none
  dataLabel : Option String := none
  htmlFor : Option String := none
  visibility : String := "visible"
  display : String := "block"
  opacity : String := "1"
  cursor : String := "auto"
  width : Nat := 10
  height : Nat := 10
  innerText : String := ""
  deriving DecidableEq, Repr

/-!
A DOM element (`Node`) holds its data, its light-DOM children, and the
child list of its attached shadow root (`NodeList.nil` = no shadow root
attached). The child lists are a dedicated mutual inductive rather than
`List Node` so that the tree traversals below are structurally recursive
and kernel-computable.
-/

mutual

inductive Node : Type where
  | mk : ElemData → NodeList → NodeList → Node
  deriving DecidableEq, Repr

inductive NodeList : Type where
  | nil : NodeList
  | cons : Node → NodeList → NodeList
  deriving DecidableEq, Repr

end

def Node.data : Node → ElemData
  | .mk d _ _ => d

def Node.children : Node → NodeList
  | .mk _ c _ => c

def Node.shadow : Node → NodeList
  | .mk _ _ s => s

def NodeList.toList : NodeList → List Node
  | .nil => []
  | .cons n r => n :: r.toList

def NodeList.isEmpty : NodeList → Bool
  | .nil => true
  | .cons _ _ => false

def nodesOf : List Node → NodeList
  | [] => .nil
  | n :: r => .cons n (nodesOf r)

/-- A childless element without shadow root. -/
def el (d : ElemData) (cs : List Node) : Node :=
  Node.mk d (nodesOf cs) NodeList.nil

/-- An element carrying an attached shadow root. -/
def elSh (d : ElemData) (cs sh : List Node) : Node :=
  Node.mk d (nodesOf cs) (nodesOf sh)

/-- A scope: the top-level elements of the document (`[body]`) or of one
shadow root. -/
abbrev Forest := NodeList

/-- A path inside one scope: successive child indices. `[]` is the scope
root itself (the document or the shadow root), which is not an element. -/
abbrev LPath := List Nat

/-- Element lookup along an `LPath`, staying in the light DOM of the scope. -/
def nodeAtL : Forest → LPath → Option Node
  | _, [] => none
  | F, i :: rest =>
    match F.toList[i]? with
    | some n => if rest = [] then some n else nodeAtL n.children rest
    | none => none

/-- Bump the leading child index of a path (sibling shift). -/
def shiftPath : LPath → LPath
  | [] => []
  | i :: t => (i + 1) :: t

/-- All element paths of a scope in document (preorder) order — the order
`querySelectorAll` enumerates matches. -/
def allPaths : Forest → List LPath
  | .nil => []
  | .cons (.mk _ c _) rest =>
    ([0] :: (allPaths c).map (fun q => 0 :: q))
      ++ (allPaths rest).map shiftPath

/-- Children of the node a path points to (empty when the path is invalid). -/
def childPaths (F : Forest) (p : LPath) : List LPath :=
  match nodeAtL F p with
  | some n => (List.range n.children.toList.length).map (fun i => p ++ [i])
  | none => []

/-- The sibling list `:nth-of-type` counts over: the scope's top list for a
top-level element (its parent is the scope root), otherwise the parent's
child list. -/
def parentChildren (F : Forest) (q : LPath) : List Node :=
  if q.length ≤ 1 then F.toList
  else
    match nodeAtL F q.dropLast with
    | some n => n.children.toList
    | none => []

/-- 1-based position of the element at `q` among its same-tag siblings (the
`:nth-of-type` index): same-tag siblings strictly before it, plus one. -/
def sameTagPos (F : Forest) (q : LPath) (t : String) : Nat :=
  (((parentChildren F q).take (q.getLastD 0)).filter
    (fun c => c.data.tag = t)).length + 1

/-- Number of same-tag siblings of the element at `q` (itself included) —
the `siblings.length` of the synthesis loop. -/
def sameTagCount (F : Forest) (q : LPath) (t : String) : Nat :=
  ((parentChildren F q).filter (fun c => c.data.tag = t)).length

/-- JS-style whitespace for trimming. -/
def wsChar (c : Char) : Bool :=
  c = ' ' || c = '\t' || c = '\n' || c = '\r'

/-- Kernel-computable `trim` (core `String.trim` does not reduce in the
kernel): drop whitespace from both ends. -/
def strTrim (s : String) : String :=
  String.mk (((s.data.dropWhile wsChar).reverse.dropWhile wsChar).reverse)

/-- Kernel-computable `toLowerCase`. -/
def strToLower (s : String) : String :=
  String.mk (s.data.map Char.toLower)

/-- Kernel-computable `.split('\n')[0]`. -/
def firstLine (s : String) : String :=
  String.mk (s.data.takeWhile (fun c => c ≠ '\n'))

/-- Kernel-computable token split of a class attribute on spaces. -/
def classTokens (s : String) : List String :=
  (s.data.splitOn ' ').map String.mk

/-- Kernel-computable digit-string parse (applied only under an
all-digits guard, where it agrees with `parseInt`). -/
def strToNat (s : String) : Nat :=
  s.data.foldl (fun acc c => acc * 10 + (c.toNat - 48)) 0

/-- One segment of a synthesised selector path: `tag`,
`tag:nth-of-type(k)`, or `#id`. -/
inductive Seg : Type where
  | tagSeg : String → Option Nat → Seg
  | idSeg : String → Seg
  deriving DecidableEq, Repr

/-- A synthesised selector: a bare `#id`, or a ` > `-joined path of
segments. -/
inductive GenSel : Type where
  | idSel : String → GenSel
  | pathSel : List Seg → GenSel
  deriving DecidableEq, Repr

/-- Simplified `CSS.escape`: backslash-escapes every character outside
`[A-Za-z0-9_-]`. (The full algorithm additionally special-cases leading
digits and the NUL character; every identifier appearing in this
development is plain, and on plain identifiers the two agree: both return
the string unchanged.) -/
def cssEscape (s : String) : String :=
  String.join (s.data.map (fun c =>
    if c.isAlphanum || c = '-' || c = '_' then String.singleton c
    else "\\" ++ String.singleton c))

def renderSeg : Seg → String
  | .tagSeg t none => t
  | .tagSeg t (some k) => t ++ ":nth-of-type(" ++ toString k ++ ")"
  | .idSeg i => "#" ++ cssEscape i

/-- The selector string the source produces: `#id`, or the path joined
with `" > "`. -/
def renderGenSel : GenSel → String
  | .idSel i => "#" ++ cssEscape i
  | .pathSel segs => String.intercalate " > " (segs.map renderSeg)

/-- CSS matching of one simple selector segment at a path: tag selectors
match the tag case-insensitively, `:nth-of-type(k)` requires position `k`
among same-tag siblings, `#id` matches the id attribute. -/
def segMatchesAt (F : Forest) (s : Seg) (q : LPath) : Bool :=
  match nodeAtL F q with
  | none => false
  | some n =>
    match s with
    | .tagSeg t nth =>
      strToLower n.data.tag = t &&
        (match nth with
         | none => true
         | some k => sameTagPos F q n.data.tag = k)
    | .idSeg i => n.data.id = i

/-- Candidate set for the first segment of a path selector: every element
of the scope (the implicit descendant relation to the scope root). -/
def resolveStart (F : Forest) (s : Seg) : List LPath :=
  (allPaths F).filter (segMatchesAt F s)

/-- One child-combinator step: children of current candidates matching the
next segment. -/
def resolveStep (F : Forest) (S : List LPath) (s : Seg) : List LPath :=
  S.flatMap (fun p => (childPaths F p).filter (segMatchesAt F s))

/-- Evaluation of a synthesised path selector against a scope: all elements
matched by the ` > `-chain, in scope order. -/
def resolveSegs (F : Forest) : List Seg → List LPath
  | [] => []
  | s :: rest => rest.foldl (resolveStep F) (resolveStart F s)

/-- `querySelectorAll` of a scope for a synthesised selector. -/
def querySelectorAll (F : Forest) : GenSel → List LPath
  | .idSel i => (allPaths F).filter (fun q =>
      match nodeAtL F q with
      | some n => n.data.id = i
      | none => false)
  | .pathSel segs => resolveSegs F segs

/-- `document.querySelectorAll('#' + CSS.escape(id)).length`: how many
elements of the document's light DOM carry the id. -/
def countId (D : Forest) (i : String) : Nat :=
  (querySelectorAll D (.idSel i)).length

/-- The ancestor walk of `getUniqueSelector`, on the reversed local path of
the current element (`rq = q.reverse`). Mirrors the source loop
`while (current && current !== document.body && !(current.parentNode
instanceof ShadowRoot))`: a path of length ≤ 1 points at `document.body`
(document scope is `[body]`) or at a direct shadow-root child, where the
loop stops without emitting a segment. An ancestor bearing an id becomes a
`#id` segment and ends the walk; otherwise the segment is the lowercase tag
name, with `:nth-of-type` appended only when the parent has more than one
same-tag child. -/
def buildUp (F : Forest) : List Nat → List Seg
  | [] => []
  | [_] => []
  | i :: j :: t =>
    match nodeAtL F ((i :: j :: t).reverse) with
    | none => []
    | some n =>
      if n.data.id ≠ "" then [Seg.idSeg n.data.id]
      else
        buildUp F (j :: t)
          ++ [Seg.tagSeg (strToLower n.data.tag)
            (if 1 < sameTagCount F ((i :: j :: t).reverse) n.data.tag then
              some (sameTagPos F ((i :: j :: t).reverse) n.data.tag)
            else none)]

/-- `getUniqueSelector(element, inShadow)` as a selector AST. `D` is the
light DOM of the document (for the document-wide uniqueness probe), `F` the
element's scope, `q` its path in that scope. An element with an id gets
`#id` at once when it is in a shadow root, or when the id is
document-unique; in every other case the ancestor walk runs (and, for a
non-shadow element with a non-unique id, immediately re-emits `#id` as a
one-segment path, since the walk breaks at the first id-bearing node — the
element itself). -/
def getUniqueSelectorSegs (D F : Forest) (inShadow : Bool) (q : LPath) : GenSel :=
  match nodeAtL F q with
  | none => .pathSel []
  | some n =>
    if n.data.id ≠ "" then
      if inShadow then .idSel n.data.id
      else if countId D n.data.id = 1 then .idSel n.data.id
      else .pathSel (buildUp F q.reverse)
    else .pathSel (buildUp F q.reverse)

/-- The selector string `getUniqueSelector` returns. -/
def getUniqueSelector (D F : Forest) (inShadow : Bool) (q : LPath) : String :=
  renderGenSel (getUniqueSelectorSegs D F inShadow q)

/-- Truthiness of `getAttribute('role')`: present and non-empty. -/
def roleTruthy (d : ElemData) : Bool :=
  match d.role with
  | some r => r ≠ ""
  | none => false

/-- Membership in the snapshot candidate selector list
`'a, span, p, button, input, select, textarea, label, iframe, frame,
frameset, [role="button"], [role="link"], [role="menuitem"], [role="tab"],
[role="option"], [role="listbox"], [onclick], [tabindex]'`. -/
def matchesInteractiveSelector (d : ElemData) : Bool :=
  d.tag ∈ ["A", "SPAN", "P", "BUTTON", "INPUT", "SELECT", "TEXTAREA",
      "LABEL", "IFRAME", "FRAME", "FRAMESET"]
    || d.role ∈ [some "button", some "link", some "menuitem", some "tab",
      some "option", some "listbox"]
    || d.onclick || d.tabindex

/-- `isElementVisible`: not style-hidden; SPAN/P need only non-empty text,
every other tag needs a positive box. -/
def isElementVisible (d : ElemData) : Bool :=
  if d.visibility = "hidden" || d.display = "none" || d.opacity = "0" then
    false
  else if d.tag = "SPAN" || d.tag = "P" then
    (strTrim d.innerText).length > 0
  else
    d.width > 0 && d.height > 0

/-- The bounded ancestor walk of `isInsideButton`, on the reversed path of
the current ancestor: up to 5 ancestors are inspected, a BUTTON succeeds,
and the walk breaks at the shadow boundary (an ancestor that is a direct
child of the scope root — in document scope that ancestor is `body` and
the remaining real-DOM ancestors `html`/`document` can never be a BUTTON,
so stopping there is equivalent). -/
def insideButtonGo (F : Forest) : List Nat → Nat → Bool
  | [], _ => false
  | rq@(_ :: rest), depth =>
    if depth ≥ 5 then false
    else
      match nodeAtL F rq.reverse with
      | none => false
      | some n =>
        if n.data.tag = "BUTTON" then true
        else if rest = [] then false
        else insideButtonGo F rest (depth + 1)

/-- `isInsideButton(el)`: does the bounded ancestor walk starting at
`el.parentElement` meet a BUTTON? -/
def isInsideButton (F : Forest) (q : LPath) : Bool :=
  insideButtonGo F q.reverse.tail 0

/-- `isElementInteractive`, with `inShadow` the result of
`el.getRootNode() !== document` (true exactly when the element's scope is a
shadow root). -/
def isElementInteractive (F : Forest) (inShadow : Bool) (q : LPath) : Bool :=
  match nodeAtL F q with
  | none => false
  | some n =>
    let d := n.data
    if d.tag ∈ ["IFRAME", "FRAME", "FRAMESET"] then true
    else if d.cursor = "pointer" then true
    else if d.tag ∈ ["A", "BUTTON", "INPUT", "SELECT", "TEXTAREA", "LABEL"] then
      true
    else if d.tag = "SPAN" || d.tag = "P" then
      if ¬((strTrim d.innerText).length > 0) then false
      else if (strTrim d.innerText).length < 2 then false
      else if isInsideButton F q then d.cursor = "pointer"
      else if d.onclick || d.tabindex then true
      else if roleTruthy d then true
      else if inShadow then (strTrim d.innerText).length ≥ 3
      else false
    else if roleTruthy d then true
    else if d.onclick || d.tabindex then true
    else false

/-- Inclusion test of the snapshot walker: matched by the candidate
selector list, visible, and interactive. -/
def qualifies (F : Forest) (inShadow : Bool) (q : LPath) : Bool :=
  match nodeAtL F q with
  | none => false
  | some n =>
    matchesInteractiveSelector n.data && isElementVisible n.data
      && isElementInteractive F inShadow q

/-- One step of a global path: into a light child or into a shadow-root
child of the current element. -/
inductive GStep : Type where
  | c : Nat → GStep
  | s : Nat → GStep
  deriving DecidableEq, Repr

/-- A whole-page element identity: child/shadow steps from the document
forest. -/
abbrev GPath := List GStep

/-- Global path of the element at local path `q` of the scope with prefix
`pre`: the first step out of a shadow root is a shadow hop, all others are
child steps. -/
def embedL (pre : GPath) (inShadow : Bool) : LPath → GPath
  | [] => pre
  | i :: rest =>
    pre ++ (if inShadow then GStep.s i else GStep.c i) :: rest.map GStep.c

/-- One element collected by the snapshot walker, with everything the
source attaches to it or can recover from it: its whole-page identity, its
scope (the forest `getRootNode()` gives access to), its path there, the
`__shadowPath`-derived flag, the propagated `__shadowContext`, and the
shadow host's `innerText` (reachable as `parentNode.host` from the scope's
top, `none` in document scope). -/
structure Collected where
  gpath : GPath
  scope : Forest
  lpath : LPath
  inShadow : Bool
  ctx : Option String
  hostInner : Option String
  deriving DecidableEq, Repr

/-- The context hint a shadow host propagates into its shadow root: the
first line of its `innerText`, when its length is in (2, 100), truncated to
50; otherwise the inherited hint. -/
def hostContext (hostText : String) (ctx : Option String) : Option String :=
  let ht := firstLine (strTrim hostText)
  if ht.length > 2 && ht.length < 100 then some (ht.take 50) else ctx

/-- The matches a single scope contributes: every element of the scope
matching the candidate selector list that is visible and interactive, in
document order. -/
def lightPart (F : Forest) (pre : GPath) (inShadow : Bool)
    (ctx : Option String) (hostInner : Option String) : List Collected :=
  ((allPaths F).filter (qualifies F inShadow)).map
    (fun q => ⟨embedL pre inShadow q, F, q, inShadow, ctx, hostInner⟩)

mutual

/-- Shadow-root recursion contributed by one element: its own shadow root's
collection (when one is attached), then its light descendants' in preorder.
`self` is the element's global path, `selfData` its data (for the context
hint), `ctx` the hint inherited at this scope. -/
def shadowTree : Node → GPath → Option String → List Collected
  | .mk d c s, self, ctx =>
    (if s.isEmpty then []
     else
       lightPart s self true (hostContext d.innerText ctx) (some d.innerText)
         ++ shadowForestS s self (hostContext d.innerText ctx) 0)
      ++ shadowForestC c self ctx 0
termination_by structural n => n

/-- Shadow recursion over a light child list, children getting child
steps. -/
def shadowForestC : NodeList → GPath → Option String → Nat → List Collected
  | .nil, _, _, _ => []
  | .cons n rest, parent, ctx, i =>
    shadowTree n (parent ++ [GStep.c i]) ctx
      ++ shadowForestC rest parent ctx (i + 1)
termination_by structural F => F

/-- Shadow recursion over the top-level elements of a shadow root, which
get shadow hops. -/
def shadowForestS : NodeList → GPath → Option String → Nat → List Collected
  | .nil, _, _, _ => []
  | .cons n rest, pre, ctx, i =>
    shadowTree n (pre ++ [GStep.s i]) ctx
      ++ shadowForestS rest pre ctx (i + 1)
termination_by structural F => F

end

/-- `collectElements(document)`: the document scope's own matches followed
by every shadow root's collection, hosts in document order, depth first. -/
def collectElements (D : Forest) : List Collected :=
  lightPart D [] false none none ++ shadowForestC D [] none 0

/-- All elements of a scope in document order. -/
def allNodes (F : Forest) : List Node :=
  (allPaths F).filterMap (nodeAtL F)

/-- Boolean substring test (JS `String.prototype.includes`). -/
def containsSub (s pat : String) : Bool :=
  decide (pat.data <:+: s.data)

/-- First truthy of two strings (JS `a || b` on strings). -/
def orStr (a b : String) : String :=
  if a = "" then b else a

/-- One record of the snapshot registry, as assembled by
`get_page_content` (`type` is named `typeAttr`; a missing optional
attribute is `none`, matching `getAttribute(..) || undefined`). -/
structure ElementRecord where
  tag : String
  typeAttr : Option String
  text : String
  href : Option String
  nameAttr : Option String
  id : Option String
  ariaLabel : Option String
  placeholder : Option String
  value : Option String
  src : Option String
  selector : String
  parentId : Option Nat
  inShadowDom : Bool
  formContext : Option String
  deriving DecidableEq, Repr

/-- `x || undefined` on an optional attribute: an empty string is falsy. -/
def normOpt : Option String → Option String
  | some "" => none
  | x => x

/-- `shadowContext || getFormContext(el)`: the propagated hint wins when
truthy. -/
def orCtx : Option String → Option String → Option String
  | some t, b => if t = "" then b else some t
  | none, b => b

def defaultNode : Node := Node.mk { tag := "" } NodeList.nil NodeList.nil

/-- Text of the `<label for="id">` associated with an element, looked up in
the element's root (`getRootNode()`), `""` when there is no such label or
its text is empty. -/
def assocLabelText (F : Forest) (i : String) : String :=
  match (allNodes F).find? (fun h =>
      h.data.tag = "LABEL" && h.data.htmlFor = some i) with
  | some h => (strTrim h.data.innerText).take 100
  | none => ""

/-- The wrapping-`<label>` walk of the text fallback, on the reversed path
of the current ancestor: stops at the first LABEL (taking its text, even
when empty), at the shadow boundary, or at the scope top. -/
def wrapLabelGo (F : Forest) : List Nat → String
  | [] => ""
  | rq@(_ :: rest) =>
    match nodeAtL F rq.reverse with
    | none => ""
    | some n =>
      if n.data.tag = "LABEL" then (strTrim n.data.innerText).take 100
      else if rest = [] then ""
      else wrapLabelGo F rest

/-- Indices of up to three preceding siblings, nearest first
(`for (let j = i - 1; j >= Math.max(0, i - 3); j--)`). -/
def prevIdxs (i : Nat) : List Nat :=
  ((List.range i).reverse).take 3

/-- Scan of preceding siblings for a SPAN/P/DIV/LABEL with usable text
(non-empty, shorter than 100). -/
def scanPrev (sibs : List Node) : List Nat → String
  | [] => ""
  | j :: rest =>
    match sibs[j]? with
    | some sb =>
      if sb.data.tag ∈ ["SPAN", "P", "DIV", "LABEL"] then
        let t := strTrim sb.data.innerText
        if t ≠ "" && t.length < 100 then t.take 100 else scanPrev sibs rest
      else scanPrev sibs rest
    | none => scanPrev sibs rest

/-- Text strategy 2: preceding-sibling text. Scope-top elements have no
modelled preceding element siblings with text (`body`'s only preceding
sibling is `head`), so the scan is empty there. -/
def prevSiblingText (F : Forest) (q : LPath) : String :=
  if q.length < 2 then ""
  else
    match nodeAtL F q.dropLast with
    | none => ""
    | some par => scanPrev par.children.toList (prevIdxs (q.getLastD 0))

/-- Text strategy 3: the parent's previous sibling's text (requires a
grandparent element, i.e. a path of length ≥ 3; for shorter paths the
grandparent is the scope root or `html`, where no usable text exists). -/
def parentPrevSiblingText (F : Forest) (q : LPath) : String :=
  if q.length < 3 then ""
  else
    match nodeAtL F q.dropLast.dropLast with
    | none => ""
    | some gp =>
      let pi := q.dropLast.getLastD 0
      if pi = 0 then ""
      else
        match gp.children.toList[pi - 1]? with
        | none => ""
        | some prev =>
          let t := strTrim prev.data.innerText
          if t ≠ "" && t.length < 100 then t.take 100 else ""

/-- The full text extraction for one record: own text / aria-label / title
/ data-label, then, for text-less form controls, the associated-label,
wrapping-label, preceding-sibling and parent-previous-sibling
strategies. -/
def recordText (F : Forest) (q : LPath) (d : ElemData) : String :=
  let t0 := orStr ((strTrim d.innerText).take 100)
    (orStr (d.ariaLabel.getD "") (orStr (d.title.getD "") (d.dataLabel.getD "")))
  if t0 ≠ "" then t0
  else if d.tag ∈ ["INPUT", "SELECT", "TEXTAREA", "LABEL"] then
    let t1 :=
      if d.tag ∈ ["INPUT", "SELECT", "TEXTAREA"] then
        let ta := if d.id ≠ "" then assocLabelText F d.id else ""
        if ta ≠ "" then ta else wrapLabelGo F q.reverse.tail
      else ""
    let t2 := if t1 ≠ "" then t1 else prevSiblingText F q
    if t2 ≠ "" then t2 else parentPrevSiblingText F q
  else ""

/-- The header probes `getFormContext` tries inside a container, in
order. -/
def headerSelectors : List String :=
  ["h1", "h2", "h3", "h4", "h5", "h6", "[class*=\"title\"]",
   "[class*=\"header\"]", "legend", ".slds-text-heading"]

/-- Whether an element matches one of the header probes: `h1`–`h6` and
`legend` by tag, the two `[class*=..]` probes by class-attribute substring,
`.slds-text-heading` by class token. -/
def headerMatches (sel : String) (d : ElemData) : Bool :=
  if sel = "[class*=\"title\"]" then containsSub d.className "title"
  else if sel = "[class*=\"header\"]" then containsSub d.className "header"
  else if sel = ".slds-text-heading" then
    (classTokens d.className).contains "slds-text-heading"
  else strToLower d.tag = sel

/-- First usable header text among a container's descendants: for each
probe in order, the first matching descendant; its text is used when its
length is in (2, 100), truncated to 50, otherwise the next probe is
tried. -/
def findHeaderText (cs : Forest) : List String → Option String
  | [] => none
  | sel :: rest =>
    match (allNodes cs).find? (fun h => headerMatches sel h.data) with
    | some h =>
      let ht := strTrim h.data.innerText
      if 2 < ht.length && ht.length < 100 then some (ht.take 50)
      else findHeaderText cs rest
    | none => findHeaderText cs rest

/-- The `getFormContext` ancestor walk, on the reversed path of the current
ancestor. A container-like ancestor is probed for a header, then its
`aria-label`/`title`, then its first text line; at the scope top the walk
either consults the shadow host's first text line (shadow scope) or ends
with no context (document scope, where only `html` remains above). -/
def getFormContextGo (F : Forest) (isSh : Bool) (hostInner : Option String) :
    List Nat → Option String
  | [] => none
  | rq@(_ :: rest) =>
    match nodeAtL F rq.reverse with
    | none => none
    | some cur =>
      let d := cur.data
      let fromContainer : Option String :=
        if d.tag ∈ ["ARTICLE", "FORM", "SECTION", "DIALOG", "DIV"] then
          match findHeaderText cur.children headerSelectors with
          | some h => some h
          | none =>
            let al := orStr (d.ariaLabel.getD "") (d.title.getD "")
            if al ≠ "" && 2 < al.length && al.length < 100 then
              some (al.take 50)
            else
              let ft := firstLine (strTrim d.innerText)
              if ft ≠ "" && 2 < ft.length && ft.length < 50 then some ft
              else none
        else none
      match fromContainer with
      | some h => some h
      | none =>
        if rest = [] then
          if isSh then
            match hostInner with
            | some hi =>
              let hl := firstLine (strTrim hi)
              if 2 < hl.length && hl.length < 50 then some hl else none
            | none => none
          else none
        else getFormContextGo F isSh hostInner rest

def getFormContext (ce : Collected) : Option String :=
  getFormContextGo ce.scope ce.inShadow ce.hostInner ce.lpath.reverse.tail

/-- The `parentId` resolution: walk `parentElement`s (dropping child steps;
a shadow hop means the parent element chain has ended) until one is a key
of the registry's element-index map. -/
def parentIdLookupGo (m : List (GPath × Nat)) : GPath → Option Nat
  | [] => none
  | GStep.s _ :: _ => none
  | GStep.c _ :: rest =>
    match m.find? (fun e => e.1 = rest.reverse) with
    | some e => some e.2
    | none => parentIdLookupGo m rest

/-- One `ElementRecord`, assembled exactly as the `results.push` of the
source. -/
def mkRecord (D : Forest) (ce : Collected) (pid : Option Nat) : ElementRecord :=
  let d := ((nodeAtL ce.scope ce.lpath).getD defaultNode).data
  { tag := strToLower d.tag
    typeAttr := normOpt d.typeAttr
    text := recordText ce.scope ce.lpath d
    href := normOpt d.href
    nameAttr := normOpt d.nameAttr
    id := if d.id = "" then none else some d.id
    ariaLabel := normOpt d.ariaLabel
    placeholder := normOpt d.placeholder
    value := if d.valueProp = "" then none else some d.valueProp
    src := normOpt d.src
    selector := getUniqueSelector D ce.scope ce.inShadow ce.lpath
    parentId := pid
    inShadowDom := ce.inShadow
    formContext := orCtx ce.ctx (getFormContext ce) }

/-- One iteration of the registry loop: resolve `parentId` against the map
built so far, push the record, then enter the element into the map at the
next index (`results.length`). -/
def registryStep (D : Forest) (acc : List ElementRecord × List (GPath × Nat))
    (ce : Collected) : List ElementRecord × List (GPath × Nat) :=
  let pid := parentIdLookupGo acc.2 ce.gpath.reverse
  (acc.1 ++ [mkRecord D ce pid], acc.2 ++ [(ce.gpath, acc.1.length)])

/-- The registry a single `get_page_content` snapshot builds: the records
in traversal order, plus the element-index map. -/
def buildRegistry (D : Forest) : List ElementRecord × List (GPath × Nat) :=
  (collectElements D).foldl (registryStep D) ([], [])

/-- The `ElementRecord` list of a `get_page_content` snapshot of the
document `D`. -/
def getPageContentRecords (D : Forest) : List ElementRecord :=
  (buildRegistry D).1

/-- A frame of the page, with the sequence of document states observed at
successive polls (the head of `states` is its current document). -/
structure Frame where
  name : String
  url : String
  states : List Forest

def Frame.doc (f : Frame) : Forest := f.states.headD NodeList.nil

/-- The per-session browser context: the main page (`context.page`,
as the sequence of its document states at successive observation points),
its frames, and the mutable current-frame pointer. -/
structure Session where
  mainStates : List Forest
  frames : List Frame
  currentFrame : Option Frame

/-- The main page's current document. -/
def Session.mainDoc (s : Session) : Forest := s.mainStates.headD NodeList.nil

/-- `context.currentFrame || context.page`: the document a direct query
targets. -/
def Session.targetDoc (s : Session) : Forest :=
  match s.currentFrame with
  | some f => f.doc
  | none => s.mainDoc

/-- Recursive shadow-root search of `searchInShadowDom`: is the selector
matched in the light DOM of any (arbitrarily nested) shadow root below
this forest? -/
def searchHostsF : Forest → GenSel → Bool
  | .nil, _ => false
  | .cons (.mk _ c s) rest, sel =>
    (if s.isEmpty then false
     else !(querySelectorAll s sel).isEmpty || searchHostsF s sel)
      || searchHostsF c sel || searchHostsF rest sel

/-- `findElementWithShadowDom(selector)`: a `document.querySelector` probe
of the main page (always `context.page`, never the switched frame),
then the recursive shadow-root search. -/
def findElementWithShadowDom (s : Session) (sel : GenSel) : Bool :=
  !(querySelectorAll s.mainDoc sel).isEmpty || searchHostsF s.mainDoc sel

/-- `clickElementWithShadowDom(selector)`: same search against the main
page; clicking the found element, or a thrown
`Error('Element not found: …')` (modelled as `Except.error`). -/
def clickElementWithShadowDom (s : Session) (sel : GenSel) : Except String Unit :=
  if !(querySelectorAll s.mainDoc sel).isEmpty || searchHostsF s.mainDoc sel then
    .ok ()
  else .error ("Element not found: " ++ renderGenSel sel)

/-- Puppeteer's `waitForSelector({visible: true})` visibility: not
style-hidden and a non-empty bounding box. -/
def puppeteerVisible (d : ElemData) : Bool :=
  d.visibility ≠ "hidden" && d.display ≠ "none" && d.width > 0 && d.height > 0

/-- Does the bounded `waitForSelector` of the direct path resolve: a
visible match in the target context's light DOM. -/
def visibleMatchExists (F : Forest) (sel : GenSel) : Bool :=
  (querySelectorAll F sel).any (fun q =>
    match nodeAtL F q with
    | some n => puppeteerVisible n.data
    | none => false)

/-- The `element_click` tool body. The direct path targets
`context.currentFrame || context.page`; its failure is caught and the
shadow fallback (always against the main page) runs; when that also finds
nothing the handler throws `Error('Element not found: …')` — modelled as
`Except.error`, since no catch in the repository converts it. Highlight
side effects do not influence the result and are not modelled. -/
def element_click (s : Session) (sel : GenSel) : Except String String :=
  if visibleMatchExists s.targetDoc sel then
    .ok ("Clicked element with selector " ++ renderGenSel sel)
  else if findElementWithShadowDom s sel then
    .ok ("Clicked element with selector " ++ renderGenSel sel)
  else .error ("Element not found: " ++ renderGenSel sel)

/-- The `element_type` tool body: same resolution as `element_click`,
then typing. -/
def element_type (s : Session) (sel : GenSel) (_text : String) :
    Except String String :=
  if visibleMatchExists s.targetDoc sel then
    .ok ("Typed text into element with selector " ++ renderGenSel sel)
  else if findElementWithShadowDom s sel then
    .ok ("Typed text into element with selector " ++ renderGenSel sel)
  else .error ("Element not found: " ++ renderGenSel sel)

/-- The interactive-element count selector of `wait_for_page_load`:
`'a, button, input, select, textarea, [role="button"], [role="link"],
[role="menuitem"], [onclick]'`. -/
def matchesCountSelector (d : ElemData) : Bool :=
  d.tag ∈ ["A", "BUTTON", "INPUT", "SELECT", "TEXTAREA"]
    || d.role ∈ [some "button", some "link", some "menuitem"]
    || d.onclick

/-- Counts contributed by every shadow root below a forest. -/
def countShadowHosts : Forest → Nat
  | .nil => 0
  | .cons (.mk _ c s) rest =>
    (if s.isEmpty then 0
     else ((allNodes s).filter (fun h => matchesCountSelector h.data)).length
       + countShadowHosts s)
      + countShadowHosts c + countShadowHosts rest

/-- `countElements(document)`: interactive elements of the light DOM plus,
recursively, of every shadow root. -/
def countInteractive (F : Forest) : Nat :=
  ((allNodes F).filter (fun h => matchesCountSelector h.data)).length
    + countShadowHosts F

/-- Outcome of `wait_for_page_load`: the
`Page loaded successfully. Found N interactive elements…` return, or the
`Page load timeout… Current element count: N` return. -/
inductive LoadResult : Type where
  | success : Nat → LoadResult
  | timeout : Nat → LoadResult
  deriving DecidableEq, Repr

/-- The polling loop of `wait_for_page_load` over the successive observed
counts, carrying `lastElementCount` and `stableCount`; the while condition
expiring is the list running out (`requiredStableChecks = 3`). -/
def waitLoadAux : List Nat → Nat → Nat → LoadResult
  | [], last, _ => .timeout last
  | c :: rest, last, stable =>
    if c = last ∧ 0 < c then
      if stable + 1 ≥ 3 then .success c else waitLoadAux rest last (stable + 1)
    else waitLoadAux rest c 0

/-- `wait_for_page_load`: polls the main page (`context.page`, regardless
of the current frame), starting from `lastElementCount = 0`,
`stableCount = 0`. -/
def wait_for_page_load (s : Session) : LoadResult :=
  waitLoadAux (s.mainStates.map countInteractive) 0 0

/-- The (dead) shadow-root recursion of `wait_for_text`'s `searchInNode`: a
`ShadowRoot` root fails the `instanceof Element || instanceof Document`
guard, so no text is inspected there and only nested shadow roots are
visited — the recursion can never report a find. -/
def textInShadowScopes : Forest → String → Bool
  | .nil, _ => false
  | .cons (.mk _ c s) rest, t =>
    (if s.isEmpty then false else textInShadowScopes s t)
      || textInShadowScopes c t || textInShadowScopes rest t

/-- `searchInNode(document)`: a case-insensitive substring probe of
`document.body.innerText`, plus the (dead) shadow recursion. -/
def wait_for_text_found (D : Forest) (t : String) : Bool :=
  (match D with
   | .cons body _ => containsSub (strToLower body.data.innerText) (strToLower t)
   | .nil => false)
    || textInShadowScopes D t

inductive WaitTextResult : Type where
  | found : WaitTextResult
  | timedOut : WaitTextResult
  deriving DecidableEq, Repr

def waitTextAux (t : String) : List Forest → WaitTextResult
  | [] => .timedOut
  | D :: rest => if wait_for_text_found D t then .found else waitTextAux t rest

/-- `wait_for_text`: polls the main page (`context.page`, regardless of the
current frame) until the text appears or the budget runs out. -/
def wait_for_text (s : Session) (t : String) : WaitTextResult :=
  waitTextAux t s.mainStates

/-- `/^\d+$/.test(selector)`. -/
def isAllDigits (str : String) : Bool :=
  str ≠ "" && str.data.all Char.isDigit

/-- The `switch_to_frame` tool body. `domLookup` models the
`page.$(selector)` probe: the `name || id` of the frame element the
selector finds, if any. Returns the updated session and the reply
string. -/
def switch_to_frame (s : Session) (sel : String)
    (domLookup : String → Option String) : Session × String :=
  if sel = "main" || sel = "default" then
    ({ s with currentFrame := none },
      "Switched to main page context (exited all frames)")
  else
    let byName := s.frames.find? (fun f => f.name = sel)
    let byUrl :=
      match byName with
      | some f => some f
      | none => s.frames.find? (fun f => containsSub f.url sel)
    let byIdx :=
      match byUrl with
      | some f => some f
      | none =>
        if isAllDigits sel then s.frames[strToNat sel]?
        else none
    let byDom :=
      match byIdx with
      | some f => some f
      | none =>
        match domLookup sel with
        | some nm =>
          if nm ≠ "" then s.frames.find? (fun f => f.name = nm) else none
        | none => none
    match byDom with
    | some f =>
      ({ s with currentFrame := some f },
        "Switched to frame: name=\"" ++ f.name ++ "\" url=\"" ++ f.url.take 100
          ++ "\"")
    | none =>
      (s, "Frame not found with selector: " ++ sel ++ ". Available frames: "
        ++ String.intercalate ", " (s.frames.enum.map (fun e =>
          "[" ++ toString e.1 ++ "] name=\"" ++ e.2.name ++ "\" url=\""
            ++ e.2.url ++ "\"")))

/-! ## Path and lookup lemmas -/

theorem nodeAtL_nil (F : Forest) : nodeAtL F [] = none := rfl

theorem nodeAtL_singleton (F : Forest) (i : Nat) :
    nodeAtL F [i] = F.toList[i]? := by
  unfold nodeAtL
  cases F.toList[i]? <;> simp

theorem nodeAtL_cons_succ (n : Node) (F : Forest) (i : Nat) (t : LPath) :
    nodeAtL (NodeList.cons n F) ((i + 1) :: t) = nodeAtL F (i :: t) := by
  unfold nodeAtL
  simp only [NodeList.toList]
  rw [List.getElem?_cons_succ]

theorem nodeAtL_append_last (F : Forest) (p : LPath) (i : Nat) (hp : p ≠ []) :
    nodeAtL F (p ++ [i]) =
      match nodeAtL F p with
      | some n => n.children.toList[i]?
      | none => none := by
  induction p generalizing F with
  | nil => exact absurd rfl hp
  | cons j t ih =>
    show nodeAtL F (j :: (t ++ [i])) = _
    unfold nodeAtL
    cases hF : F.toList[j]? with
    | none => simp
    | some n =>
      simp only
      rcases Decidable.em (t = []) with ht | ht
      · subst ht
        simp [nodeAtL_singleton]
      · have hne : t ++ [i] ≠ [] := by simp
        simp only [if_neg hne, if_neg ht]
        exact ih n.children ht

theorem nil_notMem_allPaths (F : Forest) : [] ∉ allPaths F := by
  induction F using allPaths.induct with
  | case1 => simp [allPaths]
  | case2 d c s rest ih1 ih2 =>
    simp only [allPaths, List.mem_append, List.mem_cons, List.mem_map]
    push_neg
    refine ⟨⟨by simp, fun q _ => by simp⟩, fun q hq => ?_⟩
    cases q with
    | nil => exact absurd hq ih2
    | cons i t => simp [shiftPath]

theorem mem_allPaths (F : Forest) (q : LPath) :
    q ∈ allPaths F ↔ (nodeAtL F q).isSome := by
  induction F using allPaths.induct generalizing q with
  | case1 =>
    cases q with
    | nil => simp [allPaths, nodeAtL]
    | cons i t => simp [allPaths, nodeAtL, NodeList.toList]
  | case2 d c s rest ih1 ih2 =>
    simp only [allPaths, List.mem_append, List.mem_cons, List.mem_map]
    cases q with
    | nil =>
      simp only [nodeAtL_nil, Option.isSome_none, Bool.false_eq_true,
        iff_false]
      push_neg
      refine ⟨⟨by simp, fun q' _ => by simp⟩, fun q' hq' => ?_⟩
      cases q' with
      | nil => exact absurd hq' (nil_notMem_allPaths rest)
      | cons i t => simp [shiftPath]
    | cons i t =>
      cases i with
      | zero =>
        cases t with
        | nil =>
          have h0 : nodeAtL (NodeList.cons (Node.mk d c s) rest) [0]
              = some (.mk d c s) := by
            rw [nodeAtL_singleton]
            simp [NodeList.toList]
          simp [h0]
        | cons j t2 =>
          have hL : nodeAtL (NodeList.cons (Node.mk d c s) rest) (0 :: j :: t2)
              = nodeAtL c (j :: t2) := by
            unfold nodeAtL
            simp only [NodeList.toList, List.getElem?_cons_zero]
            rfl
          rw [hL, ← ih1]
          constructor
          · rintro ((h | ⟨q', hq', he⟩) | ⟨q', hq', he⟩)
            · exact absurd h (by simp)
            · obtain rfl : q' = j :: t2 := by
                injection he with h1 h2
              exact hq'
            · exfalso
              cases q' with
              | nil => exact absurd hq' (nil_notMem_allPaths rest)
              | cons a b => simp [shiftPath] at he
          · intro h
            exact Or.inl (Or.inr ⟨j :: t2, h, rfl⟩)
      | succ i2 =>
        rw [nodeAtL_cons_succ, ← ih2]
        constructor
        · rintro ((h | ⟨q', hq', he⟩) | ⟨q', hq', he⟩)
          · exact absurd h (by simp)
          · exact absurd he (by simp)
          · cases q' with
            | nil => exact absurd hq' (nil_notMem_allPaths rest)
            | cons a b =>
              simp only [shiftPath] at he
              obtain ⟨h1, h2⟩ : a + 1 = i2 + 1 ∧ b = t := by
                injection he with h1 h2
                exact ⟨h1, h2⟩
              obtain rfl : a = i2 := by omega
              subst h2
              exact hq'
        · intro h
          exact Or.inr ⟨i2 :: t, h, rfl⟩

theorem nodeAtL_prefix_isSome (F : Forest) (p : LPath) (i : Nat)
    (h : (nodeAtL F (p ++ [i])).isSome) (hp : p ≠ []) :
    (nodeAtL F p).isSome := by
  rw [nodeAtL_append_last F p i hp] at h
  cases hF : nodeAtL F p with
  | none => rw [hF] at h; simp at h
  | some n => simp

/-! ## Selector-evaluation lemmas -/

theorem mem_childPaths {F : Forest} {p q : LPath} {n : Node}
    (h : nodeAtL F p = some n) :
    q ∈ childPaths F p ↔ ∃ i, i < n.children.toList.length ∧ q = p ++ [i] := by
  simp only [childPaths, h, List.mem_map, List.mem_range]
  constructor
  · rintro ⟨i, hi, rfl⟩
    exact ⟨i, hi, rfl⟩
  · rintro ⟨i, hi, rfl⟩
    exact ⟨i, hi, rfl⟩

theorem resolveSegs_append_last (F : Forest) (segs : List Seg) (s : Seg)
    (h : segs ≠ []) :
    resolveSegs F (segs ++ [s]) = resolveStep F (resolveSegs F segs) s := by
  cases segs with
  | nil => exact absurd rfl h
  | cons s0 rest => simp [resolveSegs, List.foldl_append]


theorem segMatchesAt_tag_self {F : Forest} {q : LPath} {n : Node}
    (h : nodeAtL F q = some n) (c : Prop) [Decidable c] :
    segMatchesAt F
      (.tagSeg (strToLower n.data.tag)
        (if c then some (sameTagPos F q n.data.tag) else none)) q = true := by
  simp only [segMatchesAt, h]
  rcases Decidable.em c with hc | hc
  · simp [hc]
  · simp [hc]

theorem buildUp_sound (F : Forest) :
    ∀ rq : List Nat, 2 ≤ rq.length → (nodeAtL F rq.reverse).isSome →
      buildUp F rq ≠ [] ∧ rq.reverse ∈ resolveSegs F (buildUp F rq) := by
  intro rq
  induction rq using buildUp.induct F with
  | case1 => intro h; simp at h
  | case2 a => intro h; simp at h
  | case3 i j t h =>
    intro _ hval
    rw [h] at hval
    simp at hval
  | case4 i j t n h hid =>
    intro _ _
    have hseg : buildUp F (i :: j :: t) = [Seg.idSeg n.data.id] := by
      simp only [buildUp, h]
      rw [if_pos hid]
    refine ⟨by simp [hseg], ?_⟩
    rw [hseg]
    simp only [resolveSegs, List.foldl_nil]
    rw [resolveStart, List.mem_filter]
    refine ⟨(mem_allPaths F _).2 (by rw [h]; rfl), ?_⟩
    simp only [segMatchesAt]
    rw [h]
    simp
  | case5 i j t n h hid ih =>
    intro _ hval
    have hseg : buildUp F (i :: j :: t) = buildUp F (j :: t)
        ++ [Seg.tagSeg (strToLower n.data.tag)
          (if 1 < sameTagCount F ((i :: j :: t).reverse) n.data.tag then
            some (sameTagPos F ((i :: j :: t).reverse) n.data.tag)
          else none)] := by
      simp only [buildUp, h]
      rw [if_neg hid]
    refine ⟨by simp [hseg], ?_⟩
    rw [hseg]
    cases hbu : buildUp F (j :: t) with
    | nil =>
      simp only [List.nil_append]
      simp only [resolveSegs, List.foldl_nil]
      rw [resolveStart, List.mem_filter]
      exact ⟨(mem_allPaths F _).2 (by rw [h]; rfl),
        segMatchesAt_tag_self h _⟩
    | cons x xs =>
      rw [← hbu, resolveSegs_append_last F _ _ (by rw [hbu]; simp)]
      cases t with
      | nil => simp [buildUp] at hbu
      | cons t0 t1 =>
        have hrev : (i :: j :: t0 :: t1).reverse
            = (j :: t0 :: t1).reverse ++ [i] := List.reverse_cons i _
        have hrne : (j :: t0 :: t1 : List Nat).reverse ≠ [] := by simp
        have hpar : (nodeAtL F (j :: t0 :: t1).reverse).isSome := by
          apply nodeAtL_prefix_isSome F _ i _ hrne
          rw [← hrev, h]
          rfl
        obtain ⟨_, hmem⟩ := ih (by simp) hpar
        rw [resolveStep, List.mem_flatMap]
        refine ⟨(j :: t0 :: t1).reverse, hmem, ?_⟩
        rw [List.mem_filter]
        obtain ⟨par, hpar2⟩ := Option.isSome_iff_exists.1 hpar
        have hsome : nodeAtL F ((j :: t0 :: t1).reverse ++ [i]) = some n := by
          rw [← hrev]
          exact h
        rw [nodeAtL_append_last F _ i hrne, hpar2] at hsome
        simp only at hsome
        have hch : (i :: j :: t0 :: t1).reverse
            ∈ childPaths F (j :: t0 :: t1).reverse := by
          rw [mem_childPaths hpar2]
          exact ⟨i, List.getElem?_eq_some.1 hsome |>.1, hrev⟩
        exact ⟨hch, segMatchesAt_tag_self h _⟩

/-! ## Snapshot-walker lemmas -/

theorem mem_lightPart {F : Forest} {pre : GPath} {isSh : Bool}
    {ctx hi : Option String} {ce : Collected} :
    ce ∈ lightPart F pre isSh ctx hi ↔
      ∃ q, q ∈ allPaths F ∧ qualifies F isSh q = true
        ∧ ce = ⟨embedL pre isSh q, F, q, isSh, ctx, hi⟩ := by
  simp only [lightPart, List.mem_map, List.mem_filter]
  constructor
  · rintro ⟨q, ⟨hq, hqual⟩, rfl⟩
    exact ⟨q, hq, hqual, rfl⟩
  · rintro ⟨q, hq, hqual, rfl⟩
    exact ⟨q, ⟨hq, hqual⟩, rfl⟩

mutual

theorem shadowTree_sound : ∀ (n : Node) (self : GPath) (ctx : Option String)
    (ce : Collected), ce ∈ shadowTree n self ctx →
      qualifies ce.scope ce.inShadow ce.lpath = true
  | .mk d c s, self, ctx, ce, h => by
    rw [shadowTree, List.mem_append] at h
    rcases h with h | h
    · rcases Decidable.em (s.isEmpty = true) with hs | hs
      · rw [if_pos hs] at h
        simp at h
      · rw [if_neg hs, List.mem_append] at h
        rcases h with h | h
        · obtain ⟨q, _, hqual, rfl⟩ := mem_lightPart.1 h
          exact hqual
        · exact shadowForestS_sound s self _ 0 ce h
    · exact shadowForestC_sound c self ctx 0 ce h

theorem shadowForestC_sound : ∀ (F : NodeList) (parent : GPath)
    (ctx : Option String) (i : Nat) (ce : Collected),
    ce ∈ shadowForestC F parent ctx i →
      qualifies ce.scope ce.inShadow ce.lpath = true
  | .nil, _, _, _, _, h => by simp [shadowForestC] at h
  | .cons nn rest, parent, ctx, i, ce, h => by
    rw [shadowForestC, List.mem_append] at h
    rcases h with h | h
    · exact shadowTree_sound nn _ ctx ce h
    · exact shadowForestC_sound rest parent ctx (i + 1) ce h

theorem shadowForestS_sound : ∀ (F : NodeList) (pre : GPath)
    (ctx : Option String) (i : Nat) (ce : Collected),
    ce ∈ shadowForestS F pre ctx i →
      qualifies ce.scope ce.inShadow ce.lpath = true
  | .nil, _, _, _, _, h => by simp [shadowForestS] at h
  | .cons nn rest, pre, ctx, i, ce, h => by
    rw [shadowForestS, List.mem_append] at h
    rcases h with h | h
    · exact shadowTree_sound nn _ ctx ce h
    · exact shadowForestS_sound rest pre ctx (i + 1) ce h

end

/-- Every element the snapshot walker collects passed the inclusion test in
its own scope. -/
theorem collectElements_sound {D : Forest} {ce : Collected}
    (h : ce ∈ collectElements D) :
    qualifies ce.scope ce.inShadow ce.lpath = true := by
  rw [collectElements, List.mem_append] at h
  rcases h with h | h
  · obtain ⟨q, _, hqual, rfl⟩ := mem_lightPart.1 h
    exact hqual
  · exact shadowForestC_sound D [] none 0 ce h

theorem qualifies_isSome {F : Forest} {isSh : Bool} {q : LPath}
    (h : qualifies F isSh q = true) : (nodeAtL F q).isSome := by
  rw [qualifies] at h
  cases hq : nodeAtL F q with
  | none => rw [hq] at h; simp at h
  | some n => simp

/-! ## Concrete pages used by the claim instances -/

/-- `<body><div id="root"><button>Ok</button><span>Ok</span></div></body>`. -/
def docExample : Forest :=
  nodesOf [el { tag := "BODY", innerText := "Ok Ok" }
    [el { tag := "DIV", id := "root", innerText := "Ok Ok" }
      [el { tag := "BUTTON", innerText := "Ok" } [],
       el { tag := "SPAN", innerText := "Ok" } []]]]

/-- A page on which synthesised ancestor paths are ambiguous:
`<body><div><button>A</button></div>
<section><div><button>B</button></div></section></body>`. -/
def docAmbiguous : Forest :=
  nodesOf [el { tag := "BODY", innerText := "A B" }
    [el { tag := "DIV", innerText := "A" }
      [el { tag := "BUTTON", innerText := "A" } []],
     el { tag := "SECTION", innerText := "B" }
      [el { tag := "DIV", innerText := "B" }
        [el { tag := "BUTTON", innerText := "B" } []]]]]

/-- A page with a clickable container and a button inside it, so the
snapshot has a record with a `parentId`. -/
def docNested : Forest :=
  nodesOf [el { tag := "BODY", innerText := "Go" }
    [el { tag := "DIV", onclick := true, innerText := "Go" }
      [el { tag := "BUTTON", innerText := "Go" } []]]]

/-- `<body><button>Hello<span>Hello</span></button></body>`: a span nested
in a button. -/
def docSpanButton : Forest :=
  nodesOf [el { tag := "BODY", innerText := "Hello" }
    [el { tag := "BUTTON", innerText := "Hello" }
      [el { tag := "SPAN", innerText := "Hello" } []]]]

/-- An empty page. -/
def docEmpty : Forest := nodesOf [el { tag := "BODY" } []]

/-- A page with one interactive element. -/
def docOne : Forest :=
  nodesOf [el { tag := "BODY", innerText := "x" }
    [el { tag := "BUTTON", innerText := "x" } []]]

/-- A page with two interactive elements. -/
def docTwo : Forest :=
  nodesOf [el { tag := "BODY", innerText := "x y" }
    [el { tag := "BUTTON", innerText := "x" } [],
     el { tag := "BUTTON", innerText := "y" } []]]

/-- A session on the empty page, with no frames and no switched frame. -/
def sessionEmpty : Session :=
  { mainStates := [docEmpty], frames := [], currentFrame := none }

/-- A session whose successive main-page observations settle at two
interactive elements. -/
def sessionSettling : Session :=
  { mainStates := [docOne, docTwo, docTwo, docTwo, docTwo], frames := [],
    currentFrame := none }

/-- A frame used to vary the current-frame pointer. -/
def frameA : Frame := { name := "a", url := "https://a.example/", states := [docOne] }

/-! ## Stability-loop lemmas -/

theorem waitLoadAux_timeout : ∀ (cs : List Nat) (last st m : Nat),
    waitLoadAux cs last st = .timeout m → m = cs.getLastD last := by
  intro cs
  induction cs with
  | nil =>
    intro last st m h
    rw [waitLoadAux] at h
    injection h with h2
    simp [h2.symm]
  | cons c rest ih =>
    intro last st m h
    rw [waitLoadAux] at h
    by_cases hc : c = last ∧ 0 < c
    · rw [if_pos hc] at h
      by_cases hst : st + 1 ≥ 3
      · rw [if_pos hst] at h
        cases h
      · rw [if_neg hst] at h
        have hm := ih last (st + 1) m h
        rw [List.getLastD_cons]
        rw [hm]
        cases rest with
        | nil => simp [hc.1.symm]
        | cons r rs =>
          cases hgl : (r :: rs).getLast? with
          | none => simp at hgl
          | some x => simp [hgl]
    · rw [if_neg hc] at h
      have hm := ih c 0 m h
      rw [List.getLastD_cons]
      exact hm

theorem waitLoadAux_success : ∀ (cs : List Nat) (last st n : Nat),
    waitLoadAux cs last st = .success n →
    0 < n ∧ ((∃ i, (cs.drop i).take 4 = List.replicate 4 n)
      ∨ (last = n ∧ cs.take (3 - st) = List.replicate (3 - st) n)) := by
  intro cs
  induction cs with
  | nil =>
    intro last st n h
    rw [waitLoadAux] at h
    cases h
  | cons c rest ih =>
    intro last st n h
    rw [waitLoadAux] at h
    by_cases hc : c = last ∧ 0 < c
    · rw [if_pos hc] at h
      by_cases hst : st + 1 ≥ 3
      · rw [if_pos hst] at h
        obtain rfl : c = n := by injection h
        refine ⟨hc.2, Or.inr ⟨hc.1.symm, ?_⟩⟩
        have h31 : 3 - st = 0 ∨ 3 - st = 1 := by omega
        rcases h31 with h31 | h31
        · simp [h31]
        · simp [h31]
      · rw [if_neg hst] at h
        obtain ⟨h0, hdisj⟩ := ih last (st + 1) n h
        refine ⟨h0, ?_⟩
        rcases hdisj with ⟨i, hw⟩ | ⟨hlast, htake⟩
        · exact Or.inl ⟨i + 1, by simpa using hw⟩
        · right
          refine ⟨hlast, ?_⟩
          have h3 : 3 - st = (3 - (st + 1)) + 1 := by omega
          rw [h3, List.take_succ_cons, List.replicate_succ]
          rw [hc.1, hlast]
          rw [htake]
    · rw [if_neg hc] at h
      obtain ⟨h0, hdisj⟩ := ih c 0 n h
      refine ⟨h0, Or.inl ?_⟩
      rcases hdisj with ⟨i, hw⟩ | ⟨hlast, htake⟩
      · exact ⟨i + 1, by simpa using hw⟩
      · refine ⟨0, ?_⟩
        simp only [List.drop_zero]
        have ht3 : rest.take 3 = List.replicate 3 n := by simpa using htake
        rw [show (4 : Nat) = 3 + 1 from rfl, List.take_succ_cons,
          List.replicate_succ, hlast, ht3]

/-! ## Registry lemmas -/

theorem parentIdLookupGo_mem (m : List (GPath × Nat)) :
    ∀ (gp : GPath) (v : Nat), parentIdLookupGo m gp = some v →
      v ∈ m.map Prod.snd := by
  intro gp
  induction gp with
  | nil => intro v h; simp [parentIdLookupGo] at h
  | cons step rest ih =>
    intro v h
    cases step with
    | s i => simp [parentIdLookupGo] at h
    | c i =>
      rw [parentIdLookupGo] at h
      cases hf : m.find? (fun e => e.1 = rest.reverse) with
      | some e =>
        rw [hf] at h
        injection h with h2
        subst h2
        exact List.mem_map_of_mem _ (List.mem_of_find?_eq_some hf)
      | none =>
        rw [hf] at h
        exact ih v h

theorem registryStep_inv (D : Forest)
    (acc : List ElementRecord × List (GPath × Nat)) (ce : Collected)
    (h1 : acc.2.map Prod.snd = List.range acc.1.length)
    (h2 : ∀ (i : Nat) (r : ElementRecord), acc.1[i]? = some r →
      ∀ pid : Nat, r.parentId = some pid → pid < i) :
    (registryStep D acc ce).2.map Prod.snd
        = List.range (registryStep D acc ce).1.length
    ∧ ∀ (i : Nat) (r : ElementRecord), (registryStep D acc ce).1[i]? = some r →
        ∀ pid : Nat, r.parentId = some pid → pid < i := by
  constructor
  · simp only [registryStep, List.map_append, List.length_append]
    rw [h1]
    simp [List.range_succ]
  · intro i r hr pid hpid
    simp only [registryStep] at hr
    rcases Nat.lt_or_ge i acc.1.length with hi | hi
    · rw [List.getElem?_append_left hi] at hr
      exact h2 i r hr pid hpid
    · have hieq : i = acc.1.length := by
        by_contra hcon
        have hge : (acc.1 ++ [mkRecord D ce
            (parentIdLookupGo acc.2 ce.gpath.reverse)]).length ≤ i := by
          simp only [List.length_append, List.length_cons, List.length_nil]
          omega
        rw [List.getElem?_eq_none hge] at hr
        cases hr
      subst hieq
      rw [List.getElem?_concat_length] at hr
      injection hr with hre
      subst hre
      have hpid2 : parentIdLookupGo acc.2 ce.gpath.reverse = some pid := by
        simpa [mkRecord] using hpid
      have hmem := parentIdLookupGo_mem acc.2 ce.gpath.reverse pid hpid2
      rw [h1] at hmem
      exact List.mem_range.1 hmem

theorem strLength_pos {s : String} (h : s ≠ "") : 0 < s.length := by
  cases hs : s.data with
  | nil => exact absurd (by cases s with | mk d => cases hs; rfl) h
  | cons a t =>
    have hl : s.length = s.data.length := rfl
    rw [hl, hs]
    simp

/-! ## Further concrete material for claim instances -/

/-- Children of a shadow root holding a single labelled span with an id. -/
def shadowScopeF : Forest :=
  nodesOf [el { tag := "SPAN", id := "s1", innerText := "Label" } []]

def defaultRecord : ElementRecord :=
  mkRecord NodeList.nil ⟨[], NodeList.nil, [], false, none, none⟩ none

/-- The second record of the `docNested` snapshot (the nested button). -/
def nestedRec : ElementRecord :=
  ((buildRegistry docNested).1).getD 1 defaultRecord

/-! ## Claims -/

set_option maxRecDepth 4000 in
/-- Claim C2 — for the document whose body is
`<div id="root"><button>Ok</button><span>Ok</span></div>`, the
`get_page_content` snapshot holds exactly one record: tag `button`, text
`Ok`, selector `#root > button`; the sibling span is not included. -/
theorem C2_example_snapshot :
    (getPageContentRecords docExample).length = 1
    ∧ (getPageContentRecords docExample).map ElementRecord.tag = ["button"]
    ∧ (getPageContentRecords docExample).map ElementRecord.text = ["Ok"]
    ∧ (getPageContentRecords docExample).map ElementRecord.selector
        = ["#root > button"] := by
  decide

/-- Claim C5 — selector synthesis returns `#id` for a non-shadow element
whose id is document-wide unique, and returns `#id` unconditionally (no
document-uniqueness probe needed) for an element inside a shadow root. -/
theorem C5_id_selector (D F : Forest) (q qs : LPath) (n m : Node)
    (hn : nodeAtL D q = some n) (hid : n.data.id ≠ "")
    (hesc : cssEscape n.data.id = n.data.id)
    (huniq : countId D n.data.id = 1)
    (hm : nodeAtL F qs = some m) (hmid : m.data.id ≠ "")
    (hmesc : cssEscape m.data.id = m.data.id) :
    getUniqueSelector D D false q = "#" ++ n.data.id
    ∧ getUniqueSelector D F true qs = "#" ++ m.data.id := by
  constructor
  · rw [getUniqueSelector]
    simp only [getUniqueSelectorSegs, hn, if_pos hid,
      if_neg Bool.false_ne_true, if_pos huniq]
    simp only [renderGenSel]
    rw [hesc]
  · rw [getUniqueSelector]
    simp [getUniqueSelectorSegs, hm, hmid, renderGenSel, hmesc]

/-- Witness for C5 at the `#root` div of the example page and at a span
with id `s1` inside a shadow root. -/
theorem C5_id_selector_witness :
    getUniqueSelector docExample docExample false [0, 0] = "#root"
    ∧ getUniqueSelector docExample shadowScopeF true [0] = "#s1" := by
  have h := C5_id_selector docExample shadowScopeF [0, 0] [0]
    (el { tag := "DIV", id := "root", innerText := "Ok Ok" }
      [el { tag := "BUTTON", innerText := "Ok" } [],
       el { tag := "SPAN", innerText := "Ok" } []])
    (el { tag := "SPAN", id := "s1", innerText := "Label" } [])
    (by decide) (by decide) (by decide) (by decide) (by decide) (by decide)
    (by decide)
  exact h

/-- Claim C8 — the snapshot computation is a function of the page state:
re-running `get_page_content` on an unchanged DOM yields identical
`ElementRecord.selector` values. -/
theorem C8_snapshot_determinism (D1 D2 : Forest) (h : D1 = D2) :
    (getPageContentRecords D1).map ElementRecord.selector
      = (getPageContentRecords D2).map ElementRecord.selector := by
  rw [h]

/-- Witness for C8 on the example page. -/
theorem C8_snapshot_determinism_witness :
    (getPageContentRecords docExample).map ElementRecord.selector
      = (getPageContentRecords docExample).map ElementRecord.selector :=
  C8_snapshot_determinism docExample docExample rfl

/-- Claim C9 — `switch_to_frame("main")` clears the current-frame pointer
regardless of its prior value (and of how the frame-element probe would
behave). -/
theorem C9_switch_to_main_clears (s : Session)
    (domLookup : String → Option String) :
    (switch_to_frame s "main" domLookup).1.currentFrame = none := by
  rw [switch_to_frame]
  simp

/-- Claim C10 — `findElementWithShadowDom` (the shadow fallback of
`element_click`/`element_type`), `clickElementWithShadowDom`, and the
polling of `wait_for_page_load` and `wait_for_text` all evaluate against
the main page (`context.page`): their results do not depend on the
current-frame pointer. -/
theorem C10_frame_pointer_independence (s : Session) (f1 f2 : Option Frame)
    (sel : GenSel) (t : String) :
    findElementWithShadowDom { s with currentFrame := f1 } sel
      = findElementWithShadowDom { s with currentFrame := f2 } sel
    ∧ clickElementWithShadowDom { s with currentFrame := f1 } sel
      = clickElementWithShadowDom { s with currentFrame := f2 } sel
    ∧ wait_for_page_load { s with currentFrame := f1 }
      = wait_for_page_load { s with currentFrame := f2 }
    ∧ wait_for_text { s with currentFrame := f1 } t
      = wait_for_text { s with currentFrame := f2 } t :=
  ⟨rfl, rfl, rfl, rfl⟩

/-- Claim C3 counterexample — on the empty page, `element_click` with the
unmatched selector `#nope` does not return an error string as its result:
the handler throws (`Except.error`), and no catch in the repository
converts the exception into a returned string. -/
theorem C3_counterexample :
    element_click sessionEmpty (GenSel.idSel "nope")
        = Except.error "Element not found: #nope"
    ∧ (element_click sessionEmpty (GenSel.idSel "nope")).toOption = none :=
  ⟨rfl, rfl⟩

/-- Claim C3 (amended) — when the selector matches nothing in the main
document nor in any shadow root (and no frame is switched), `element_click`
fails by throwing an `Error` whose message is the descriptive string
`Element not found: <selector>`; the conversion of that exception into a
string reply happens outside this repository's code. -/
theorem C3_click_missing_throws (s : Session) (sel : GenSel)
    (hmain : s.currentFrame = none)
    (hnf : findElementWithShadowDom s sel = false) :
    element_click s sel
      = Except.error ("Element not found: " ++ renderGenSel sel) := by
  have hq : querySelectorAll s.mainDoc sel = [] := by
    rw [findElementWithShadowDom] at hnf
    rcases Bool.or_eq_false_iff.1 hnf with ⟨h1, _⟩
    simpa using h1
  have hv : visibleMatchExists s.targetDoc sel = false := by
    have ht : s.targetDoc = s.mainDoc := by
      rw [Session.targetDoc, hmain]
    rw [ht, visibleMatchExists, hq]
    rfl
  rw [element_click, hv, hnf]
  simp

/-- Witness for the amended C3 on the empty page. -/
theorem C3_click_missing_throws_witness :
    element_click sessionEmpty (GenSel.idSel "nope")
      = Except.error ("Element not found: " ++ renderGenSel (GenSel.idSel "nope")) :=
  C3_click_missing_throws sessionEmpty (GenSel.idSel "nope") rfl (by decide)

/-- Claim C4 — `wait_for_page_load` returns success only when some count
`n > 0` was observed four polls in a row (set once, then found unchanged on
3 consecutive stability checks); a changed count resets the stability
counter (the loop restarts with the new count and counter 0); and the
timeout return carries the last observed count (0 when nothing was ever
polled). -/
theorem C4_page_load_stability (s : Session) (n m : Nat) :
    (wait_for_page_load s = .success n →
      0 < n ∧ ∃ i, ((s.mainStates.map countInteractive).drop i).take 4
        = List.replicate 4 n)
    ∧ (∀ (c last st : Nat) (rest : List Nat), c ≠ last →
        waitLoadAux (c :: rest) last st = waitLoadAux rest c 0)
    ∧ (wait_for_page_load s = .timeout m →
        m = (s.mainStates.map countInteractive).getLastD 0) := by
  refine ⟨?_, ?_, ?_⟩
  · intro h
    obtain ⟨h0, hd⟩ := waitLoadAux_success _ 0 0 n h
    refine ⟨h0, ?_⟩
    rcases hd with ⟨i, hw⟩ | ⟨hlast, _⟩
    · exact ⟨i, hw⟩
    · omega
  · intro c last st rest hne
    rw [waitLoadAux, if_neg (fun hc => hne hc.1)]
  · intro h
    exact waitLoadAux_timeout _ 0 0 m h

/-- Witness for C4 on a session whose observed counts are `1,2,2,2,2`:
success with count 2, and the four-in-a-row window exists. -/
theorem C4_page_load_stability_witness :
    0 < 2 ∧ ∃ i, ((sessionSettling.mainStates.map countInteractive).drop i).take 4
      = List.replicate 4 2 :=
  (C4_page_load_stability sessionSettling 2 0).1 (by decide)

/-- Claim C1 counterexample — on `docAmbiguous` the first button is in the
snapshot and its synthesised selector is `div > button`, but evaluated
against its scope (the document) that selector resolves to two nodes, not
exactly one. -/
theorem C1_counterexample :
    (⟨[GStep.c 0, GStep.c 0, GStep.c 0], docAmbiguous, [0, 0, 0], false,
        none, none⟩ : Collected) ∈ collectElements docAmbiguous
    ∧ getUniqueSelector docAmbiguous docAmbiguous false [0, 0, 0]
        = "div > button"
    ∧ (querySelectorAll docAmbiguous
        (getUniqueSelectorSegs docAmbiguous docAmbiguous false [0, 0, 0])).length
        = 2 := by
  refine ⟨?_, rfl, rfl⟩
  decide

/-- Claim C1 (amended) — for every element included in a snapshot whose
synthesised selector string is non-empty, evaluating the selector against
the element's correct scope yields the originating element among the
matches; uniqueness is not guaranteed (ancestor paths are child chains not
anchored at the scope root, shadow ids and ancestor ids are taken without
a uniqueness probe, and a direct shadow-root child without an id gets the
empty selector). -/
theorem buildUp_roundtrip (F : Forest) (q : LPath)
    (hval : (nodeAtL F q).isSome)
    (hne2 : renderGenSel (.pathSel (buildUp F q.reverse)) ≠ "") :
    q ∈ resolveSegs F (buildUp F q.reverse) := by
  rcases hrq : q.reverse with _ | ⟨a, rest⟩
  · have hq : q = [] := by
      have h := congrArg List.reverse hrq
      simpa using h
    subst hq
    simp [nodeAtL] at hval
  · cases rest with
    | nil =>
      have hq : q = [a] := by
        have h := congrArg List.reverse hrq
        simpa using h
      subst hq
      simp only [buildUp, renderGenSel, List.map_nil,
        show ([a] : List Nat).reverse = [a] from rfl] at hne2
      exact absurd (by decide) hne2
    | cons b t =>
      have hq : q = (a :: b :: t).reverse := by
        have h := congrArg List.reverse hrq
        simpa using h
      have hvv : (nodeAtL F (a :: b :: t).reverse).isSome := by
        rw [← hq]
        exact hval
      obtain ⟨_, hmem⟩ := buildUp_sound F (a :: b :: t) (by simp) hvv
      rw [hq]
      exact hmem

theorem C1_selector_roundtrip (D : Forest) (ce : Collected)
    (hce : ce ∈ collectElements D)
    (hne : getUniqueSelector D ce.scope ce.inShadow ce.lpath ≠ "") :
    ce.lpath ∈ querySelectorAll ce.scope
      (getUniqueSelectorSegs D ce.scope ce.inShadow ce.lpath) := by
  have hqual := collectElements_sound hce
  have hval := qualifies_isSome hqual
  obtain ⟨n, hn⟩ := Option.isSome_iff_exists.1 hval
  have hidm : ce.lpath ∈ querySelectorAll ce.scope (.idSel n.data.id) := by
    rw [querySelectorAll, List.mem_filter]
    refine ⟨(mem_allPaths _ _).2 hval, ?_⟩
    simp [hn]
  rw [getUniqueSelector] at hne
  simp only [getUniqueSelectorSegs, hn] at hne ⊢
  by_cases hid : n.data.id ≠ ""
  · rw [if_pos hid] at hne ⊢
    cases hsh : ce.inShadow with
    | true =>
      rw [hsh, if_pos rfl] at hne
      rw [if_pos rfl]
      exact hidm
    | false =>
      rw [hsh, if_neg Bool.false_ne_true] at hne
      rw [if_neg Bool.false_ne_true]
      by_cases hcnt : countId D n.data.id = 1
      · rw [if_pos hcnt] at hne
        rw [if_pos hcnt]
        exact hidm
      · rw [if_neg hcnt] at hne
        rw [if_neg hcnt, querySelectorAll]
        exact buildUp_roundtrip ce.scope ce.lpath hval hne
  · rw [if_neg hid] at hne ⊢
    rw [querySelectorAll]
    exact buildUp_roundtrip ce.scope ce.lpath hval hne

/-- Witness for the amended C1 at the button of the example page. -/
theorem C1_selector_roundtrip_witness :
    ([0, 0, 0] : LPath) ∈ querySelectorAll docExample
      (getUniqueSelectorSegs docExample docExample false [0, 0, 0]) :=
  C1_selector_roundtrip docExample
    ⟨[GStep.c 0, GStep.c 0, GStep.c 0], docExample, [0, 0, 0], false,
      none, none⟩
    (by decide) (by decide)

/-- Claim C6 — a SPAN with non-empty visible text whose bounded ancestor
walk meets a BUTTON, and whose computed cursor is not `pointer`, is
classified non-interactive and excluded from the snapshot in any scope,
while a visible enclosing BUTTON is classified interactive and included
(stated here for document-scope elements). -/
theorem C6_span_inside_button (D : Forest) (q qb : LPath)
    (nSpan nBtn : Node)
    (hs : nodeAtL D q = some nSpan)
    (htag : nSpan.data.tag = "SPAN")
    (htext : strTrim nSpan.data.innerText ≠ "")
    (hcur : nSpan.data.cursor ≠ "pointer")
    (hbtn : isInsideButton D q = true)
    (hbq : nodeAtL D qb = some nBtn)
    (hbtag : nBtn.data.tag = "BUTTON")
    (hbvis : isElementVisible nBtn.data = true) :
    (∀ b : Bool, isElementInteractive D b q = false)
    ∧ (∀ ce ∈ collectElements D, ¬(ce.scope = D ∧ ce.lpath = q))
    ∧ isElementInteractive D false qb = true
    ∧ (⟨embedL [] false qb, D, qb, false, none, none⟩ : Collected)
        ∈ collectElements D := by
  have hlen0 : 0 < (strTrim nSpan.data.innerText).length := strLength_pos htext
  have hspan : ∀ b : Bool, isElementInteractive D b q = false := by
    intro b
    by_cases hl : (strTrim nSpan.data.innerText).length < 2
    · simp [isElementInteractive, hs, htag, hcur, hbtn, hlen0, hl]
    · simp [isElementInteractive, hs, htag, hcur, hbtn, hlen0, hl]
  have hbint : isElementInteractive D false qb = true := by
    simp [isElementInteractive, hbq, hbtag]
  refine ⟨hspan, ?_, hbint, ?_⟩
  · rintro ce hce ⟨hsc, hlp⟩
    have hqual := collectElements_sound hce
    rw [hsc, hlp] at hqual
    rw [qualifies, hs] at hqual
    simp only [Bool.and_eq_true] at hqual
    rw [hspan ce.inShadow] at hqual
    exact absurd hqual.2 (by simp)
  · rw [collectElements, List.mem_append]
    left
    rw [mem_lightPart]
    refine ⟨qb, (mem_allPaths _ _).2 (by rw [hbq]; rfl), ?_, rfl⟩
    rw [qualifies, hbq]
    simp [matchesInteractiveSelector, hbtag, hbvis, hbint]

/-- Witness for C6 on `<body><button>Hello<span>Hello</span></button>`. -/
theorem C6_span_inside_button_witness :
    isElementInteractive docSpanButton false [0, 0, 0] = false
    ∧ (⟨embedL [] false [0, 0], docSpanButton, [0, 0], false, none, none⟩
        : Collected) ∈ collectElements docSpanButton :=
  have h := C6_span_inside_button docSpanButton [0, 0, 0] [0, 0]
    (el { tag := "SPAN", innerText := "Hello" } [])
    (el { tag := "BUTTON", innerText := "Hello" }
      [el { tag := "SPAN", innerText := "Hello" } []])
    (by decide) (by decide) (by decide) (by decide) (by decide) (by decide)
    (by decide) (by decide)
  ⟨h.1 false, h.2.2.2⟩

/-- Claim C7 — in every registry built by a single snapshot, the indices
entered into the element-index map are exactly `0, 1, 2, …` in traversal
order, and every record's `parentId`, when present, is strictly smaller
than that record's own index. -/
theorem C7_registry_invariants (D : Forest) :
    (buildRegistry D).2.map Prod.snd = List.range (buildRegistry D).1.length
    ∧ ∀ (i : Nat) (r : ElementRecord), (buildRegistry D).1[i]? = some r →
        ∀ pid : Nat, r.parentId = some pid → pid < i := by
  rw [buildRegistry]
  suffices h : ∀ (ces : List Collected)
      (acc : List ElementRecord × List (GPath × Nat)),
      (acc.2.map Prod.snd = List.range acc.1.length
        ∧ ∀ (i : Nat) (r : ElementRecord), acc.1[i]? = some r →
            ∀ pid : Nat, r.parentId = some pid → pid < i) →
      ((ces.foldl (registryStep D) acc).2.map Prod.snd
          = List.range (ces.foldl (registryStep D) acc).1.length
        ∧ ∀ (i : Nat) (r : ElementRecord),
            (ces.foldl (registryStep D) acc).1[i]? = some r →
            ∀ pid : Nat, r.parentId = some pid → pid < i) by
    exact h (collectElements D) ([], [])
      ⟨rfl, by intro i r hr; simp at hr⟩
  intro ces
  induction ces with
  | nil => intro acc h; exact h
  | cons ce rest ih =>
    intro acc h
    rw [List.foldl_cons]
    exact ih _ (registryStep_inv D acc ce h.1 h.2)

set_option maxRecDepth 4000 in
/-- Witness for C7 on the nested page: indices are `0, 1` and the nested
button's `parentId 0` is smaller than its index 1. -/
theorem C7_registry_invariants_witness :
    (buildRegistry docNested).2.map Prod.snd
      = List.range (buildRegistry docNested).1.length ∧ 0 < 1 :=
  ⟨(C7_registry_invariants docNested).1,
   (C7_registry_invariants docNested).2 1 nestedRec (by decide) 0 (by decide)⟩
